import Mathlib

/-!
Verification development for the AD937x device control module
(`src/mpm/lib/mykonos/ad937x_device.cpp`).

Embedding conventions:
* The C++ `double` values occurring in this module are exact dyadic
  rationals; they are represented by `FP`, a pair of integers `m`, `e`
  denoting the value `m * 2 ^ e`.  Every C++ floating-point operation is
  modelled exactly: the exact rational result is rounded to 53 significant
  bits, round-to-nearest with ties to even (the IEEE-754 binary64 default;
  all values in this module are in the normal, non-overflowing range).
* Machine integers are `ℕ`, with explicit wrapping where a cast occurs.
* The vendor chip API is a black box: the hardware interactions a function
  performs are recorded as an explicit trace of `HwCall` values, and
  fallible operations return the trace of calls already issued together
  with an optional error.
-/

set_option maxRecDepth 100000

namespace Ad937x

/-- Number of binary digits of a natural number (0 for 0), with explicit
fuel so that reduction is structural.  The fuel bounds the number of
digits; 4096 is ample for every quantity in this development. -/
def bitLen : ℕ → ℕ → ℕ
  | 0, _ => 0
  | fuel + 1, n => if n = 0 then 0 else bitLen fuel (n / 2) + 1

/-- Bit length with the standard fuel. -/
def nbits (n : ℕ) : ℕ := bitLen 4096 n

/-- A floating-point (binary64) value, represented exactly as the dyadic
rational `m * 2 ^ e`. -/
structure FP where
  m : ℤ
  e : ℤ
deriving DecidableEq, Repr

/-- IEEE-754 binary64 rounding of the positive rational `a / b`
(`a, b ≥ 1`): round to 53 significant bits, nearest, ties to even.
Returns the rounded significand and exponent. -/
def flRatPos (a b : ℕ) : FP :=
  let la := nbits a
  let lb := nbits b
  let d : ℤ := (la : ℤ) - (lb : ℤ)
  let e0 : ℤ := if b * 2 ^ d.toNat ≤ a * 2 ^ (-d).toNat then d else d - 1
  let k : ℤ := 52 - e0
  let num := a * 2 ^ k.toNat
  let den := b * 2 ^ (-k).toNat
  let n0 := num / den
  let r := num % den
  let n : ℕ :=
    if 2 * r < den then n0
    else if den < 2 * r then n0 + 1
    else if n0 % 2 = 0 then n0 else n0 + 1
  ⟨(n : ℤ), e0 - 52⟩

/-- IEEE-754 binary64 rounding of the rational `p / q` (`q ≠ 0`). -/
def flRat (p q : ℤ) : FP :=
  if p = 0 ∨ q = 0 then ⟨0, 0⟩
  else
    let x := flRatPos p.natAbs q.natAbs
    if (0 < p ∧ 0 < q) ∨ (p < 0 ∧ q < 0) then x else ⟨-x.m, x.e⟩

/-- Round an exact dyadic value to binary64. -/
def flround (x : FP) : FP :=
  if 0 ≤ x.e then flRat (x.m * 2 ^ x.e.toNat) 1 else flRat x.m (2 ^ (-x.e).toNat)

/-- Conversion of an integer to `double` (exact for the magnitudes used in
this module, which are below `2 ^ 53`). -/
def FP.ofInt (n : ℤ) : FP := ⟨n, 0⟩

/-- The binary64 value of a decimal literal `p / q`, e.g. the C++ literal
`41.95` is `doubleLit 4195 100`. -/
def doubleLit (p q : ℤ) : FP := flRat p q

/-- Negation (exact in binary64). -/
def FP.neg (x : FP) : FP := ⟨-x.m, x.e⟩

/-- Exact sum of two dyadic values (before rounding). -/
def FP.addExact (x y : FP) : FP :=
  let e := min x.e y.e
  ⟨x.m * 2 ^ (x.e - e).toNat + y.m * 2 ^ (y.e - e).toNat, e⟩

/-- C++ `double` addition: exact sum, then binary64 rounding. -/
def FP.fladd (x y : FP) : FP := flround (FP.addExact x y)

/-- C++ `double` subtraction. -/
def FP.flsub (x y : FP) : FP := flround (FP.addExact x (FP.neg y))

/-- C++ `double` multiplication: exact product, then binary64 rounding. -/
def FP.flmul (x y : FP) : FP := flround ⟨x.m * y.m, x.e + y.e⟩

/-- C++ `double` division: the exact quotient rounded to binary64. -/
def FP.fldiv (x y : FP) : FP :=
  flRat (x.m * 2 ^ ((x.e - y.e).toNat)) (y.m * 2 ^ ((y.e - x.e).toNat))

/-- C++ `double`-to-integer conversion: truncation toward zero
(defined behavior only when the truncated value fits the target type). -/
def FP.trunc (x : FP) : ℤ :=
  if 0 ≤ x.e then x.m * 2 ^ x.e.toNat else Int.tdiv x.m (2 ^ (-x.e).toNat)

/-- Rational value denoted by an `FP` (`2 ^ k` spelled out by sign case so
that it is defined for negative exponents). -/
def pow2 (k : ℤ) : ℚ :=
  if 0 ≤ k then ((2 ^ k.toNat : ℕ) : ℚ) else 1 / ((2 ^ (-k).toNat : ℕ) : ℚ)

/-- The rational value of an `FP`. -/
def FP.toRat (x : FP) : ℚ := (x.m : ℚ) * pow2 x.e

/-- Decidable test that two `FP` values denote the same rational:
compare significands after aligning to the smaller exponent. -/
def FP.equivB (x y : FP) : Bool :=
  decide (x.m * 2 ^ (x.e - min x.e y.e).toNat = y.m * 2 ^ (y.e - min x.e y.e).toNat)

/-
Constants from the source file.
-/

/-- Source constant: `const double ad937x_device::MAX_TX_GAIN = 41.95;`. -/
def MAX_TX_GAIN : FP := doubleLit 4195 100

/-- Source constant: `static const size_t ARM_BINARY_SIZE = 98304;`. -/
def ARM_BINARY_SIZE : ℕ := 98304

/-
Unit converters (`ad937x_device.cpp`, lines 206-233).
-/

/-- Source: `uint8_t _convert_rx_gain_to_mykonos(double gain)` returns
`static_cast<uint8_t>((gain * 2) + 195)`. -/
def _convert_rx_gain_to_mykonos (gain : FP) : ℕ :=
  ((FP.fladd (FP.flmul gain (FP.ofInt 2)) (FP.ofInt 195)).trunc).toNat % 256

/-- Source: `double _convert_rx_gain_from_mykonos(uint8_t gain)` returns
`(static_cast<double>(gain) - 195) / 2.0`. -/
def _convert_rx_gain_from_mykonos (gain : ℕ) : FP :=
  FP.fldiv (FP.flsub (FP.ofInt gain) (FP.ofInt 195)) (FP.ofInt 2)

/-- Source: `uint16_t _convert_tx_gain_to_mykonos(double gain)` returns
`static_cast<uint16_t>((MAX_TX_GAIN - (gain)) * 1e3)`. -/
def _convert_tx_gain_to_mykonos (gain : FP) : ℕ :=
  ((FP.flmul (FP.flsub MAX_TX_GAIN gain) (FP.ofInt 1000)).trunc).toNat % 65536

/-- Source: `double _convert_tx_gain_from_mykonos(uint16_t gain)` returns
`MAX_TX_GAIN - (static_cast<double>(gain) / 1e3)`. -/
def _convert_tx_gain_from_mykonos (gain : ℕ) : FP :=
  FP.flsub MAX_TX_GAIN (FP.fldiv (FP.ofInt gain) (FP.ofInt 1000))

/-- RX gain-pin step conversion in `set_gain_pin_step_sizes`:
`static_cast<uint8_t>(step / 0.5)`. -/
def rx_step_code (step : FP) : ℕ := ((FP.fldiv step (doubleLit 5 10)).trunc).toNat % 256

/-- TX gain-pin step conversion in `set_gain_pin_step_sizes`:
`static_cast<uint8_t>(step / 0.05)`. -/
def tx_step_code (step : FP) : ℕ := ((FP.fldiv step (doubleLit 5 100)).trunc).toNat % 256

/-
Device model: directions, chains, radio state, hardware-call traces.
-/

/-- RX / TX direction (`uhd::direction_t` as used by this module). -/
inductive Direction | RX | TX
deriving DecidableEq, Repr

/-- Signal chain (`chain_t::ONE` / `chain_t::TWO`). -/
inductive Chain | ONE | TWO
deriving DecidableEq, Repr

/-- Radio state token (`ad937x_device::radio_state_t`). -/
inductive RadioState | OFF | ON
deriving DecidableEq, Repr

/-- Hardware writes issued through the vendor API that are relevant to the
claims (radio on/off, gain-control-pin setup, manual gain / attenuation). -/
inductive HwCall
  | radioOff
  | radioOn
  | setRxGainCtrlPin (c : Chain) (incStep decStep incPin decPin : ℕ) (en : Bool)
  | setTxAttenCtrlPin (c : Chain) (step incPin decPin : ℕ) (en : Bool)
  | setRxManualGain (c : Chain) (code : ℕ)
  | setTxAttenuation (c : Chain) (code : ℕ)
deriving DecidableEq, Repr

/-- Failures of the modelled operations (thrown as `mpm::runtime_error` /
`MPM_ASSERT_THROW` in the source). -/
inductive DevError
  | ioError
  | syncMismatch (observed expected : ℕ)
  | assertFailed
deriving DecidableEq, Repr

/-- Source: `_move_to_config_state()` (lines 130-142).  Reads the radio
status word; if `(status & 0x3) == 0x3` it calls `stop_radio()` (one
`MYKONOS_radioOff` write) and returns `ON`, otherwise returns `OFF` with no
hardware write.  The returned trace lists the hardware writes issued. -/
def _move_to_config_state (status : ℕ) : RadioState × List HwCall :=
  if status &&& 3 = 3 then (RadioState.ON, [HwCall.radioOff]) else (RadioState.OFF, [])

/-- Source: `_restore_from_config_state(state)` (lines 146-152). If `ON`,
calls `start_radio()` (one `MYKONOS_radioOn` write); otherwise a no-op. -/
def _restore_from_config_state : RadioState → List HwCall
  | RadioState.ON => [HwCall.radioOn]
  | RadioState.OFF => []

/-- Per-channel gain-pin configuration (`ad937x_gain_ctrl_channel_t`):
step sizes in hardware units (`uint8_t`), pin ids, enable flag. -/
structure ChanCfg where
  inc_step : ℕ
  dec_step : ℕ
  inc_pin : ℕ
  dec_pin : ℕ
  enable : Bool
deriving DecidableEq, Repr

/-- The gain-pin configuration store (`gain_ctrl.config`), total over
direction and chain (the C++ map is constructed with all four entries). -/
structure GainCtrl where
  config : Direction → Chain → ChanCfg

/-- Update one channel of the store. -/
def GainCtrl.update (g : GainCtrl) (d : Direction) (c : Chain)
    (f : ChanCfg → ChanCfg) : GainCtrl :=
  ⟨fun d' c' => if d' = d ∧ c' = c then f (g.config d c) else g.config d' c'⟩

/-- Source: `_apply_gain_pins(direction, chain)` (lines 235-299).  Reads the
channel configuration; for TX, `MPM_ASSERT_THROW(chan.inc_step ==
chan.dec_step)` fires before `_move_to_config_state` and before the GPIO
write.  On success the result lists the hardware writes in order (radio-off
bracket, the vendor gain-ctrl-pin call, radio-on bracket); on the failed
assertion it is the empty trace with the error. -/
def _apply_gain_pins (g : GainCtrl) (status : ℕ) (d : Direction) (c : Chain) :
    List HwCall × Option DevError :=
  let chan := g.config d c
  match d with
  | Direction.RX =>
    let p := _move_to_config_state status
    (p.2 ++ [HwCall.setRxGainCtrlPin c chan.inc_step chan.dec_step chan.inc_pin
        chan.dec_pin chan.enable] ++ _restore_from_config_state p.1, none)
  | Direction.TX =>
    if chan.inc_step = chan.dec_step then
      let p := _move_to_config_state status
      (p.2 ++ [HwCall.setTxAttenCtrlPin c chan.inc_step chan.inc_pin
          chan.dec_pin chan.enable] ++ _restore_from_config_state p.1, none)
    else ([], some DevError.assertFailed)

/-- Source: `set_gain_pin_step_sizes(direction, chain, inc_step, dec_step)`
(lines 671-687).  Mutates the store first — for RX `inc_step / 0.5` and
`dec_step / 0.5` go to the increment and decrement fields; for TX the pins
are flipped: `inc_step / 0.05` goes to the decrement field and
`dec_step / 0.05` to the increment field — then calls `_apply_gain_pins`.
Returns the mutated store together with the apply outcome. -/
def set_gain_pin_step_sizes (g : GainCtrl) (status : ℕ) (d : Direction)
    (c : Chain) (inc_step dec_step : FP) :
    GainCtrl × (List HwCall × Option DevError) :=
  let g' :=
    match d with
    | Direction.RX => g.update d c fun ch =>
        { ch with inc_step := rx_step_code inc_step,
                  dec_step := rx_step_code dec_step }
    | Direction.TX => g.update d c fun ch =>
        { ch with dec_step := tx_step_code inc_step,
                  inc_step := tx_step_code dec_step }
  (g', _apply_gain_pins g' status d c)

/-- Source: `set_enable_gain_pins(direction, chain, enable)` (lines
689-693).  Mutates the enable flag, then calls `_apply_gain_pins`. -/
def set_enable_gain_pins (g : GainCtrl) (status : ℕ) (d : Direction)
    (c : Chain) (enable : Bool) : GainCtrl × (List HwCall × Option DevError) :=
  let g' := g.update d c fun ch => { ch with enable := enable }
  (g', _apply_gain_pins g' status d c)

/-- Source: `set_gain(direction, chain, value)` (lines 565-618). Brackets
with the config state, converts the value to the hardware code, assigns
`coerced_value = static_cast<double>(code)`, issues the direction- and
chain-specific vendor setter with the code, and returns `coerced_value`. -/
def set_gain (status : ℕ) (d : Direction) (c : Chain) (value : FP) :
    FP × List HwCall :=
  let p := _move_to_config_state status
  match d with
  | Direction.TX =>
    let attenuation := _convert_tx_gain_to_mykonos value
    (FP.ofInt attenuation,
      p.2 ++ [HwCall.setTxAttenuation c attenuation] ++ _restore_from_config_state p.1)
  | Direction.RX =>
    let gain := _convert_rx_gain_to_mykonos value
    (FP.ofInt gain,
      p.2 ++ [HwCall.setRxManualGain c gain] ++ _restore_from_config_state p.1)

/-- The gain codes carried by the vendor gain/attenuation setters in a
trace, in order. -/
def gainWrites : List HwCall → List ℕ
  | [] => []
  | HwCall.setRxManualGain _ n :: rest => n :: gainWrites rest
  | HwCall.setTxAttenuation _ n :: rest => n :: gainWrites rest
  | _ :: rest => gainWrites rest

/-
Initialization / firmware load (`finish_initialization`, lines 374-386,
and `_get_arm_binary`, lines 160-179).
-/

/-- Steps of `finish_initialization` after the multichip-sync check, in
source order: `MYKONOS_initArm`, `MYKONOS_loadArmFromBinary` (with the size
of the buffer passed), and the RF initialization `_initialize_rf()`. -/
inductive InitStep
  | initArm
  | loadArm (size : ℕ)
  | rfInit
deriving DecidableEq, Repr

/-- Source: `_get_arm_binary()` (lines 160-179).  The firmware file is
`none` if it cannot be opened (throws).  Otherwise `std::vector<uint8_t>
binary(ARM_BINARY_SIZE)` is zero-initialized and `file.read(...,
ARM_BINARY_SIZE)` fills in `min(length, ARM_BINARY_SIZE)` bytes; a short
read sets failbit and eofbit, not badbit, so `file.bad()` — modelled by
`badbit`, a low-level stream error — is the only read failure the code
checks (the size check is a TODO in the source, line 170). -/
def _get_arm_binary (file : Option (List ℕ)) (badbit : Bool) :
    Except DevError (List ℕ) :=
  match file with
  | none => Except.error DevError.ioError
  | some contents =>
    if badbit then Except.error DevError.ioError
    else Except.ok
      (contents.take ARM_BINARY_SIZE ++
        List.replicate (ARM_BINARY_SIZE - contents.length) 0)

/-- Source: `_verify_multichip_sync_status(mcs)` for `PARTIAL` (lines
193-204): `status_expected = 0x0A`, `status_mask = status_expected`;
throws when `(mcs_status & status_mask) != status_expected`. -/
def _verify_multichip_sync_status_partial (mcs_status : ℕ) :
    Option DevError :=
  if mcs_status &&& 10 ≠ 10 then some (DevError.syncMismatch mcs_status 10)
  else none

/-- Source: `finish_initialization()` (lines 374-386): verify partial
multichip sync, `MYKONOS_initArm`, `_get_arm_binary()`,
`MYKONOS_loadArmFromBinary(device, binary.data(), binary.size())`, then
`_initialize_rf()`.  Returns the steps performed in order and an optional
error (vendor calls themselves are assumed to succeed; the claims concern
the file handling). -/
def finish_initialization (mcs_status : ℕ) (file : Option (List ℕ))
    (badbit : Bool) : List InitStep × Option DevError :=
  match _verify_multichip_sync_status_partial mcs_status with
  | some e => ([], some e)
  | none =>
    match _get_arm_binary file badbit with
    | Except.error e => ([InitStep.initArm], some e)
    | Except.ok binary =>
      ([InitStep.initArm, InitStep.loadArm binary.length, InitStep.rfInit], none)

/-
PLL lock status (`get_pll_lock_status`, lines 719-743).
-/

/-- Source: the single-shot branch of `get_pll_lock_status(pll, false)`:
`(pll_status & pll) == pll` on the freshly read status word. -/
def get_pll_lock_status_single (pll_status pll : ℕ) : Bool :=
  (pll_status &&& pll) == pll

/-- The busy-poll loop of `get_pll_lock_status(pll, true)`:
`while (not locked and lock_time > now()) locked = single_check()`.
`statuses n` is the status word returned by the n-th hardware read,
`fuel` the number of loop iterations the 200 ms deadline admits, `i` the
index of the next read.  Returns the loop outcome and the next read
index. -/
def pllPollLoop (statuses : ℕ → ℕ) (pll : ℕ) : ℕ → ℕ → Bool × ℕ
  | 0, i => (false, i)
  | fuel + 1, i =>
    if get_pll_lock_status_single (statuses i) pll then (true, i + 1)
    else pllPollLoop statuses pll fuel (i + 1)

/-- Source: `get_pll_lock_status(pll, true)` (lines 728-742): run the
busy-poll loop; if still not locked, perform one final single-shot check
(`// last chance`) and return its result.  The second component counts the
single-shot checks performed. -/
def get_pll_lock_status_wait (statuses : ℕ → ℕ) (pll : ℕ) (fuel : ℕ) :
    Bool × ℕ :=
  match pllPollLoop statuses pll fuel 0 with
  | (true, i) => (true, i)
  | (false, i) => (get_pll_lock_status_single (statuses i) pll, i + 1)

/-- A default-initialized gain-pin store, used to instantiate universally
quantified theorems at a concrete input. -/
def defaultGainCtrl : GainCtrl := ⟨fun _ _ => ⟨0, 0, 0, 0, false⟩⟩

/-
Helper lemmas.
-/

/-- Bitwise AND with a mask returns the mask exactly when every bit of the
mask is set in the other operand. -/
theorem land_mask_iff (s m : ℕ) :
    s &&& m = m ↔ ∀ i, m.testBit i = true → s.testBit i = true := by
  constructor
  · intro h i him
    have h2 := congrArg (fun t => t.testBit i) h
    simp only [Nat.testBit_land] at h2
    rw [him] at h2
    simpa using h2
  · intro h
    apply Nat.eq_of_testBit_eq
    intro i
    rw [Nat.testBit_land]
    cases him : m.testBit i
    · simp
    · simp [h i him]

/-- `(s & 0x3) == 0x3` holds exactly when the two lowest bits are set. -/
theorem land3_iff (s : ℕ) :
    s &&& 3 = 3 ↔ (s.testBit 0 = true ∧ s.testBit 1 = true) := by
  rw [land_mask_iff]
  constructor
  · intro h
    exact ⟨h 0 (by decide), h 1 (by decide)⟩
  · rintro ⟨h0, h1⟩ i hi
    match i with
    | 0 => exact h0
    | 1 => exact h1
    | j + 2 =>
      exfalso
      have hlt : (3 : ℕ) < 2 ^ (j + 2) := by
        calc (3 : ℕ) < 4 := by norm_num
        _ = 2 ^ 2 := by norm_num
        _ ≤ 2 ^ (j + 2) := Nat.pow_le_pow_right (by norm_num) (by omega)
      rw [Nat.testBit_eq_false_of_lt hlt] at hi
      exact Bool.false_ne_true hi

/-- `pow2` agrees with the integer power of 2 in `ℚ`. -/
theorem pow2_eq_zpow (k : ℤ) : pow2 k = (2 : ℚ) ^ k := by
  unfold pow2
  split
  · rename_i h
    rw [Nat.cast_pow, ← zpow_natCast, Int.toNat_of_nonneg h]
    norm_num
  · rename_i h
    rw [Nat.cast_pow, one_div, ← zpow_natCast, Int.toNat_of_nonneg (by omega : (0:ℤ) ≤ -k)]
    rw [← zpow_neg]
    norm_num

/-- If the decidable alignment test succeeds, the two `FP` values denote
the same rational. -/
theorem FP.toRat_eq_of_equivB {x y : FP} (h : FP.equivB x y = true) :
    x.toRat = y.toRat := by
  have h' : x.m * 2 ^ (x.e - min x.e y.e).toNat
      = y.m * 2 ^ (y.e - min x.e y.e).toNat := by
    simpa [FP.equivB] using h
  have hq : ((x.m : ℚ)) * 2 ^ (x.e - min x.e y.e).toNat
      = ((y.m : ℚ)) * 2 ^ (y.e - min x.e y.e).toNat := by
    have := congrArg (fun z : ℤ => (z : ℚ)) h'
    push_cast at this
    exact this
  have hzx : (2 : ℚ) ^ x.e
      = 2 ^ (((x.e - min x.e y.e).toNat : ℤ)) * 2 ^ (min x.e y.e) := by
    rw [← zpow_add₀ (two_ne_zero : (2 : ℚ) ≠ 0)]
    congr 1
    omega
  have hzy : (2 : ℚ) ^ y.e
      = 2 ^ (((y.e - min x.e y.e).toNat : ℤ)) * 2 ^ (min x.e y.e) := by
    rw [← zpow_add₀ (two_ne_zero : (2 : ℚ) ≠ 0)]
    congr 1
    omega
  unfold FP.toRat
  rw [pow2_eq_zpow, pow2_eq_zpow, hzx, hzy,
    zpow_natCast, zpow_natCast, ← mul_assoc, ← mul_assoc, hq]

/-- The busy-poll loop under a never-locking status source: it runs out of
fuel, leaving `locked = false` and having read `fuel` status words. -/
theorem pllPollLoop_never (statuses : ℕ → ℕ) (pll : ℕ)
    (hnever : ∀ n, get_pll_lock_status_single (statuses n) pll = false) :
    ∀ fuel i, pllPollLoop statuses pll fuel i = (false, i + fuel) := by
  intro fuel
  induction fuel with
  | zero => intro i; simp [pllPollLoop]
  | succ f ih =>
    intro i
    rw [pllPollLoop, hnever i]
    simp only [Bool.false_eq_true, if_false, ih (i + 1)]
    congr 1
    omega

/-- The store after `set_gain_pin_step_sizes` for TX: converted `inc_step`
lands in the decrement field and converted `dec_step` in the increment
field (the source comment: TX is attenuation direction, pins flipped). -/
theorem set_gain_pin_step_sizes_tx_config (g : GainCtrl) (status : ℕ)
    (c : Chain) (inc dec : FP) :
    ((set_gain_pin_step_sizes g status Direction.TX c inc dec).1).config
        Direction.TX c
      = { g.config Direction.TX c with
          dec_step := tx_step_code inc, inc_step := tx_step_code dec } := by
  simp [set_gain_pin_step_sizes, GainCtrl.update]

/-- The store after `set_gain_pin_step_sizes` for RX: increment maps to
increment and decrement to decrement. -/
theorem set_gain_pin_step_sizes_rx_config (g : GainCtrl) (status : ℕ)
    (c : Chain) (inc dec : FP) :
    ((set_gain_pin_step_sizes g status Direction.RX c inc dec).1).config
        Direction.RX c
      = { g.config Direction.RX c with
          inc_step := rx_step_code inc, dec_step := rx_step_code dec } := by
  simp [set_gain_pin_step_sizes, GainCtrl.update]

/-- `_apply_gain_pins` on TX with unequal stored steps: the assertion fires
with no hardware write. -/
theorem _apply_gain_pins_tx_ne (g : GainCtrl) (status : ℕ) (c : Chain)
    (h : (g.config Direction.TX c).inc_step ≠ (g.config Direction.TX c).dec_step) :
    _apply_gain_pins g status Direction.TX c = ([], some DevError.assertFailed) := by
  unfold _apply_gain_pins
  simp [h]

/-
Claim theorems.
-/

/-- C1: the claim says a firmware file shorter than 98304 bytes makes
`finish_initialization()` fail with an I/O error before RF initialization.
The code does not check the size (TODO at line 170, and a short `read`
sets failbit/eofbit rather than badbit): with a passing multichip-sync
status (0x0A) and an empty (0-byte) firmware file, `finish_initialization`
succeeds, passes a zero-padded 98304-byte buffer to the ARM loader, and
proceeds to RF initialization. -/
theorem c1_short_firmware_file_not_fatal :
    finish_initialization 10 (some []) false
      = ([InitStep.initArm, InitStep.loadArm ARM_BINARY_SIZE, InitStep.rfInit],
         none) := by
  have h1 : _verify_multichip_sync_status_partial 10 = none := by decide
  have h2 : _get_arm_binary (some []) false
      = Except.ok (List.replicate ARM_BINARY_SIZE 0) := by
    simp [_get_arm_binary]
  unfold finish_initialization
  rw [h1, h2]
  simp

/-- C2 counterexample: `set_gain(RX, ONE, 0.0)` returns 195 (the raw
hardware code written), while decoding the written code via the converter
gives 0; so the returned value is not the decoded gain. -/
theorem c2_counterexample_rx_zero :
    (set_gain 0 Direction.RX Chain.ONE (FP.ofInt 0)).1.toRat = 195 ∧
    (_convert_rx_gain_from_mykonos
        (_convert_rx_gain_to_mykonos (FP.ofInt 0))).toRat = 0 ∧
    (195 : ℚ) ≠ 0 := by
  refine ⟨?_, ?_, by norm_num⟩
  · have h : (set_gain 0 Direction.RX Chain.ONE (FP.ofInt 0)).1 = FP.ofInt 195 := by
      decide
    rw [h]
    unfold FP.ofInt FP.toRat pow2
    norm_num
  · have h : _convert_rx_gain_from_mykonos
        (_convert_rx_gain_to_mykonos (FP.ofInt 0)) = ⟨0, 0⟩ := by
      decide
    rw [h]
    unfold FP.toRat pow2
    norm_num

/-- C2 amended: for every direction, chain and input value, `set_gain`
issues exactly one vendor gain write, and returns the numeric value of the
hardware code carried by that write (the raw code cast to double), not a
decoded gain. -/
theorem c2_returns_raw_code_of_write (status : ℕ) (d : Direction) (c : Chain)
    (value : FP) :
    ∃ n, gainWrites (set_gain status d c value).2 = [n] ∧
      (set_gain status d c value).1 = FP.ofInt n := by
  cases d with
  | RX =>
    refine ⟨_convert_rx_gain_to_mykonos value, ?_, ?_⟩
    · unfold set_gain _move_to_config_state _restore_from_config_state
      by_cases h : status &&& 3 = 3 <;> simp [h, gainWrites]
    · simp [set_gain]
  | TX =>
    refine ⟨_convert_tx_gain_to_mykonos value, ?_, ?_⟩
    · unfold set_gain _move_to_config_state _restore_from_config_state
      by_cases h : status &&& 3 = 3 <;> simp [h, gainWrites]
    · simp [set_gain]

/-- C3 counterexample: the RX gain encoder truncates the double-precision
value toward zero rather than rounding to nearest: at an input of 0.3 dB
the code produces 195, while the claimed formula round(0.3·2)+195 gives
196. -/
theorem c3_counterexample_rounding :
    _convert_rx_gain_to_mykonos (doubleLit 3 10) = 195 ∧
    round ((3 : ℚ) / 10 * 2) + 195 = 196 ∧ (195 : ℕ) ≠ 196 := by
  refine ⟨by decide, ?_, by decide⟩
  have h : ((3 : ℚ) / 10 * 2) + 1 / 2 = 11 / 10 := by norm_num
  rw [round_eq, h]
  have hf : ⌊(11 / 10 : ℚ)⌋ = 1 := by
    rw [Int.floor_eq_iff]
    constructor <;> norm_num
  rw [hf]
  norm_num

/-- C3 amended: for gainDb in [0, 30] the encoder computes (gainDb·2)+195
in double arithmetic and truncates toward zero, so 0.3 dB yields code 195;
on the half-dB grid the result is exact: code = gainDb·2 + 195. -/
theorem c3_truncation_behavior :
    _convert_rx_gain_to_mykonos (doubleLit 3 10) = 195 ∧
    ∀ k : Fin 61, _convert_rx_gain_to_mykonos ⟨(k : ℕ), -1⟩ = (k : ℕ) + 195 := by
  constructor
  · decide
  · decide

/-- C4: the TX gain encoder maps the boundary gains exactly under
double-precision arithmetic and the 16-bit cast:
txGainToAttenCode(0.0) = 41950 and txGainToAttenCode(41.95) = 0. -/
theorem c4_tx_boundary_codes :
    _convert_tx_gain_to_mykonos (FP.ofInt 0) = 41950 ∧
    _convert_tx_gain_to_mykonos MAX_TX_GAIN = 0 := by
  constructor
  · decide
  · decide

/-- C5: for every gainDb in [0, 30] that is a multiple of 0.5 (gainDb =
k/2, k = 0..60, an exact double), decoding the encoded RX gain returns
gainDb exactly. -/
theorem c5_rx_roundtrip_half_db (k : Fin 61) :
    (_convert_rx_gain_from_mykonos
        (_convert_rx_gain_to_mykonos ⟨(k : ℕ), -1⟩)).toRat
      = ((k : ℕ) : ℚ) / 2 := by
  have h : FP.equivB
      (_convert_rx_gain_from_mykonos
        (_convert_rx_gain_to_mykonos ⟨(k : ℕ), -1⟩)) ⟨(k : ℕ), -1⟩ = true := by
    revert k
    decide
  rw [FP.toRat_eq_of_equivB h]
  unfold FP.toRat
  rw [pow2_eq_zpow]
  push_cast
  rw [zpow_neg, zpow_one]
  ring

/-- C6: for every radio-status word, `_move_to_config_state` issues exactly
one radio-off call and returns ON precisely when the two lowest status
bits (RX-on and TX-on) are both set, and otherwise returns OFF with no
hardware write; `_restore_from_config_state ON` issues exactly one radio-on
call and `_restore_from_config_state OFF` issues none. -/
theorem c6_config_state_bracketing (status : ℕ) :
    _move_to_config_state status
      = (if status.testBit 0 = true ∧ status.testBit 1 = true
          then (RadioState.ON, [HwCall.radioOff])
          else (RadioState.OFF, [])) ∧
    _restore_from_config_state RadioState.ON = [HwCall.radioOn] ∧
    _restore_from_config_state RadioState.OFF = [] := by
  refine ⟨?_, rfl, rfl⟩
  unfold _move_to_config_state
  by_cases h : status &&& 3 = 3
  · rw [if_pos h, if_pos ((land3_iff status).mp h)]
  · rw [if_neg h, if_neg (fun hc => h ((land3_iff status).mpr hc))]

/-- C7: for every TX chain, if the converted increment and decrement step
codes are unequal, `set_gain_pin_step_sizes` fails on the
`MPM_ASSERT_THROW` in `_apply_gain_pins` with no hardware write issued (no
gain-pin setter, no radio on/off). -/
theorem c7_tx_unequal_steps_assert (g : GainCtrl) (status : ℕ) (c : Chain)
    (inc dec : FP) (hne : tx_step_code inc ≠ tx_step_code dec) :
    (set_gain_pin_step_sizes g status Direction.TX c inc dec).2
      = ([], some DevError.assertFailed) := by
  have h2 : (set_gain_pin_step_sizes g status Direction.TX c inc dec).2
      = _apply_gain_pins
          ((set_gain_pin_step_sizes g status Direction.TX c inc dec).1)
          status Direction.TX c := by
    simp [set_gain_pin_step_sizes]
  rw [h2]
  apply _apply_gain_pins_tx_ne
  rw [set_gain_pin_step_sizes_tx_config]
  exact fun hc => hne hc.symm

/-- C7 witness at concrete inputs: steps 0.0 and 1.0 convert to codes 0 and
20. -/
theorem c7_tx_unequal_steps_assert_witness :
    (set_gain_pin_step_sizes defaultGainCtrl 0 Direction.TX Chain.ONE
        (FP.ofInt 0) (FP.ofInt 1)).2
      = ([], some DevError.assertFailed) :=
  c7_tx_unequal_steps_assert defaultGainCtrl 0 Chain.ONE
    (FP.ofInt 0) (FP.ofInt 1) (by decide)

/-- C8: with a status source that never reports all requested mask bits,
the waiting variant terminates with result false, performs one more
single-shot check after the fuel (deadline) is exhausted and returns that
final check's result; and a single-shot check returns true exactly when
every bit of the mask is set in the live status. -/
theorem c8_pll_lock_wait_timeout (statuses : ℕ → ℕ) (pll fuel : ℕ)
    (hnever : ∀ n, get_pll_lock_status_single (statuses n) pll = false) :
    (get_pll_lock_status_wait statuses pll fuel).1 = false ∧
    (get_pll_lock_status_wait statuses pll fuel).2 = fuel + 1 ∧
    (get_pll_lock_status_wait statuses pll fuel).1
      = get_pll_lock_status_single (statuses fuel) pll ∧
    ∀ st mask : ℕ, get_pll_lock_status_single st mask = true
      ↔ ∀ i, mask.testBit i = true → st.testBit i = true := by
  have hw : get_pll_lock_status_wait statuses pll fuel
      = (get_pll_lock_status_single (statuses fuel) pll, fuel + 1) := by
    unfold get_pll_lock_status_wait
    rw [pllPollLoop_never statuses pll hnever fuel 0]
    simp
  refine ⟨?_, ?_, ?_, ?_⟩
  · rw [hw]
    exact hnever fuel
  · rw [hw]
  · rw [hw]
  · intro st mask
    rw [get_pll_lock_status_single, beq_iff_eq]
    exact land_mask_iff st mask

/-- C8 witness: a constant all-zero status source with mask 1 and fuel 2. -/
theorem c8_pll_lock_wait_timeout_witness :
    (get_pll_lock_status_wait (fun _ => 0) 1 2).1 = false := by
  have h : ∀ n : ℕ, get_pll_lock_status_single ((fun _ : ℕ => 0) n) 1 = false := by
    intro n
    show get_pll_lock_status_single 0 1 = false
    decide
  exact (c8_pll_lock_wait_timeout (fun _ => 0) 1 2 h).1

/-- C9: `set_gain_pin_step_sizes` for TX stores the converted increment
step in the decrement field and the converted decrement step in the
increment field, while for RX increment maps to increment and decrement to
decrement. -/
theorem c9_tx_step_field_swap (g : GainCtrl) (status : ℕ) (c : Chain)
    (inc dec : FP) :
    (((set_gain_pin_step_sizes g status Direction.TX c inc dec).1).config
        Direction.TX c).dec_step = tx_step_code inc ∧
    (((set_gain_pin_step_sizes g status Direction.TX c inc dec).1).config
        Direction.TX c).inc_step = tx_step_code dec ∧
    (((set_gain_pin_step_sizes g status Direction.RX c inc dec).1).config
        Direction.RX c).inc_step = rx_step_code inc ∧
    (((set_gain_pin_step_sizes g status Direction.RX c inc dec).1).config
        Direction.RX c).dec_step = rx_step_code dec := by
  rw [set_gain_pin_step_sizes_tx_config, set_gain_pin_step_sizes_rx_config]
  exact ⟨rfl, rfl, rfl, rfl⟩

/-- C10: the gain-pin store is mutated before validation or hardware
application, so when the apply step fails (the TX equal-step assertion),
the store retains the newly written step codes; likewise
`set_enable_gain_pins` leaves the new enable flag in the store regardless
of the apply outcome. -/
theorem c10_store_no_rollback (g : GainCtrl) (status : ℕ) (c : Chain)
    (inc dec : FP) (en : Bool)
    (hfail : (set_gain_pin_step_sizes g status Direction.TX c inc dec).2.2
        = some DevError.assertFailed) :
    (((set_gain_pin_step_sizes g status Direction.TX c inc dec).1).config
        Direction.TX c).dec_step = tx_step_code inc ∧
    (((set_gain_pin_step_sizes g status Direction.TX c inc dec).1).config
        Direction.TX c).inc_step = tx_step_code dec ∧
    ∀ d : Direction, (((set_enable_gain_pins g status d c en).1).config
        d c).enable = en := by
  refine ⟨?_, ?_, ?_⟩
  · rw [set_gain_pin_step_sizes_tx_config]
  · rw [set_gain_pin_step_sizes_tx_config]
  · intro d
    simp [set_enable_gain_pins, GainCtrl.update]

/-- C10 witness at the concrete failing input of the C7 witness. -/
theorem c10_store_no_rollback_witness :
    (((set_gain_pin_step_sizes defaultGainCtrl 0 Direction.TX Chain.ONE
        (FP.ofInt 0) (FP.ofInt 1)).1).config Direction.TX Chain.ONE).dec_step
      = tx_step_code (FP.ofInt 0) :=
  (c10_store_no_rollback defaultGainCtrl 0 Chain.ONE (FP.ofInt 0)
    (FP.ofInt 1) true (by decide)).1

end Ad937x
